import Mathlib

set_option maxRecDepth 100000

/-!
Shallow embedding of the allocator sources `src/mm.c` (explicit LIFO free
list, namespace `MM`) and `src/mm-seglist.c` (segregated lists, namespace
`Seg`).

Conventions of the embedding:
* Addresses are byte offsets from the start of the simulated arena
  (`mem_heap_lo`), so the arena origin is address 0.  The null pointer is
  modelled as the address 0; this is unambiguous because address 0 holds
  the alignment padding word and is never a block payload address.
* Memory is a total map from byte addresses to 32-bit words; the code only
  ever loads and stores aligned 4-byte words through the `GET`/`PUT`
  macros, which is what `GET`/`PUT` model (`GET` truncates to 32 bits like
  the `unsigned int` load does).  `memcpy`/`memset` are modelled word-wise
  at the same granularity (`memcpyW`/`memsetW`); byte-level consequences of
  `memcpy` in `realloc` are modelled separately by `memcpyBytes`.
* `mem_sbrk` is modelled as always succeeding (the memory system is
  grow-only and the claims under study do not concern exhaustion); `brk`
  is the number of bytes obtained so far, so `mem_sbrk(n)` returns the old
  `brk` and increments it by `n`.
* `size_t` arithmetic is carried out modulo `2 ^ 64` where the source can
  wrap (products, subtractions).
-/

def W32 : Nat := 2 ^ 32

def W64 : Nat := 2 ^ 64

abbrev Mem := Nat → Nat

/-- The `GET(p)` macro: an `unsigned int` (32-bit) load at byte address `p`. -/
def GET (m : Mem) (p : Nat) : Nat := m p % W32

/-- The `PUT(p, val)` macro: a 32-bit store at byte address `p`. -/
def PUT (m : Mem) (p v : Nat) : Mem := fun q => if q = p then v % W32 else m q

/-- The `PACK(size, alloc)` macro. -/
def PACK (size alloc : Nat) : Nat := size ||| alloc

/-- `GET_SIZE(p)`: clear the low three bits of a 32-bit word. -/
def GET_SIZE (w : Nat) : Nat := w - w % 8

/-- `GET_ALLOC(p)`: the low bit of the word. -/
def GET_ALLOC (w : Nat) : Nat := w % 2

/-- `FTRP(bp)`: footer address of the block with payload pointer `bp`. -/
def FTRP (m : Mem) (bp : Nat) : Nat := bp + GET_SIZE (GET m (bp - 4)) - 8

/-- `NEXT_BLKP(bp)`. -/
def NEXT_BLKP (m : Mem) (bp : Nat) : Nat := bp + GET_SIZE (GET m (bp - 4))

/-- `PREV_BLKP(bp)`. -/
def PREV_BLKP (m : Mem) (bp : Nat) : Nat := bp - GET_SIZE (GET m (bp - 8))

/-- Byte-level model of `memcpy(dst, src, len)` as seen from the source
side: `memcpyBytes src len i` is `some (src i)` when byte `i` (an offset
from the source pointer) is read and copied, and `none` when byte `i` is
not read. -/
def memcpyBytes (src : Nat → Nat) (len : Nat) : Nat → Option Nat :=
  fun i => if i < len then some (src i) else none

/-- Word-granular model of `memcpy` over the word memory (the byte-level
reads of `memcpy` are modelled by `memcpyBytes`). -/
def memcpyW (m : Mem) (dst src n : Nat) : Mem :=
  fun q => if dst ≤ q ∧ q < dst + n ∧ (q - dst) % 4 = 0 then GET m (src + (q - dst)) else m q

/-- Word-granular model of `memset(p, 0, n)`. -/
def memsetW (m : Mem) (p n : Nat) : Mem :=
  fun q => if p ≤ q ∧ q < p + n ∧ (q - p) % 4 = 0 then 0 else m q

namespace MM

/-- Allocator state of `src/mm.c`: the word memory, the sbrk break, and the
globals `heap_base`, `heap_listp` (0 before `mm_init` has run) and `root`
(absolute address of the first free block, 0 for NULL). -/
structure Heap where
  mem : Mem
  brk : Nat
  heap_base : Nat
  heap_listp : Nat
  root : Nat

/-- `next_free_val`: the stored 32-bit successor link of a free block. -/
def next_free_val (m : Mem) (bp : Nat) : Nat := GET m bp

/-- `prev_free_val`: the stored 32-bit predecessor link of a free block. -/
def prev_free_val (m : Mem) (bp : Nat) : Nat := GET m (bp + 4)

/-- `put_prev_val`. -/
def put_prev_val (m : Mem) (bp v : Nat) : Mem := PUT m (bp + 4) v

/-- `put_next_val`. -/
def put_next_val (m : Mem) (bp v : Nat) : Mem := PUT m bp v

/-- `ptoi`: pointer to 32-bit offset from `heap_base`. -/
def ptoi (base p : Nat) : Nat := (p - base) % W32

/-- `itop`: 32-bit offset back to a pointer. -/
def itop (base i : Nat) : Nat := base + i

/-- `get_next_free`: successor pointer of a free block, 0 for NULL. -/
def get_next_free (base : Nat) (m : Mem) (bp : Nat) : Nat :=
  if next_free_val m bp ≠ 0 then itop base (next_free_val m bp) else 0

/-- `get_prev_free`: predecessor pointer of a free block, 0 for NULL. -/
def get_prev_free (base : Nat) (m : Mem) (bp : Nat) : Nat :=
  if prev_free_val m bp ≠ 0 then itop base (prev_free_val m bp) else 0

/-- `insertFree` from `src/mm.c` (lines 473-499), with its three-way branch
on `root`. -/
def insertFree (s : Heap) (bp : Nat) : Heap :=
  let m1 := put_prev_val s.mem bp 0
  if s.root = 0 then
    { s with mem := put_next_val m1 bp 0, root := bp }
  else if bp < s.root ∧ s.root < NEXT_BLKP m1 bp then
    let m2 := put_next_val m1 bp (next_free_val m1 s.root)
    let m3 := if next_free_val m2 bp ≠ 0 then
                put_prev_val m2 (itop s.heap_base (next_free_val m2 bp)) (ptoi s.heap_base bp)
              else m2
    { s with mem := m3, root := bp }
  else if bp ≠ s.root then
    let m2 := put_next_val m1 bp (ptoi s.heap_base s.root)
    let m3 := put_prev_val m2 s.root (ptoi s.heap_base bp)
    { s with mem := m3, root := bp }
  else
    { s with mem := m1, root := bp }

/-- `deleteFree` from `src/mm.c` (lines 447-468); note that `root` is only
updated inside the `next_free ≠ 0` branch. -/
def deleteFree (s : Heap) (bp : Nat) : Heap :=
  let nf := next_free_val s.mem bp
  let pf := prev_free_val s.mem bp
  let m1 := if pf ≠ 0 then put_next_val s.mem (itop s.heap_base pf) nf else s.mem
  if nf ≠ 0 then
    let m2 := put_prev_val m1 (itop s.heap_base nf) pf
    if bp = s.root then { s with mem := m2, root := get_next_free s.heap_base m2 bp }
    else { s with mem := m2 }
  else
    { s with mem := m1 }

/-- `coalesce` from `src/mm.c` (lines 301-362): boundary-tag merge in four
cases; every case ends by calling `insertFree` on the merged block. -/
def coalesce (s : Heap) (bp : Nat) : Heap × Nat :=
  let prev_alloc := GET_ALLOC (GET s.mem (FTRP s.mem (PREV_BLKP s.mem bp)))
  let next_alloc := GET_ALLOC (GET s.mem (NEXT_BLKP s.mem bp - 4))
  let size := GET_SIZE (GET s.mem (bp - 4))
  if prev_alloc ≠ 0 ∧ next_alloc ≠ 0 then
    (insertFree s bp, bp)
  else if prev_alloc ≠ 0 ∧ next_alloc = 0 then
    let sz := size + GET_SIZE (GET s.mem (NEXT_BLKP s.mem bp - 4))
    let s1 := deleteFree s (NEXT_BLKP s.mem bp)
    let m2 := PUT s1.mem (bp - 4) (PACK sz 0)
    let m3 := PUT m2 (FTRP m2 bp) (PACK sz 0)
    (insertFree { s1 with mem := m3 } bp, bp)
  else if prev_alloc = 0 ∧ next_alloc ≠ 0 then
    let sz := size + GET_SIZE (GET s.mem (PREV_BLKP s.mem bp - 4))
    let s1 := deleteFree s (PREV_BLKP s.mem bp)
    let m2 := PUT s1.mem (FTRP s1.mem bp) (PACK sz 0)
    let m3 := PUT m2 (PREV_BLKP m2 bp - 4) (PACK sz 0)
    let bp2 := PREV_BLKP m3 bp
    (insertFree { s1 with mem := m3 } bp2, bp2)
  else
    let sz := size + GET_SIZE (GET s.mem (PREV_BLKP s.mem bp - 4)) +
              GET_SIZE (GET s.mem (FTRP s.mem (NEXT_BLKP s.mem bp)))
    let s1 := deleteFree s (NEXT_BLKP s.mem bp)
    let s2 := deleteFree s1 (PREV_BLKP s1.mem bp)
    let m3 := PUT s2.mem (PREV_BLKP s2.mem bp - 4) (PACK sz 0)
    let m4 := PUT m3 (FTRP m3 (NEXT_BLKP m3 bp)) (PACK sz 0)
    let bp2 := PREV_BLKP m4 bp
    (insertFree { s2 with mem := m4 } bp2, bp2)

/-- The header/footer/epilogue writes of `extend_heap` (lines 284-290),
before the final `coalesce`: used to state how `extend_heap` decomposes. -/
def extendWrites (s : Heap) (words : Nat) : Heap × Nat :=
  let size := (if words % 2 = 1 then (words + 1) * 4 else words * 4) % W64
  let bp := s.brk
  let m1 := PUT s.mem (bp - 4) (PACK size 0)
  let m2 := PUT m1 (FTRP m1 bp) (PACK size 0)
  let m3 := PUT m2 (NEXT_BLKP m2 bp - 4) (PACK 0 1)
  ({ s with mem := m3, brk := s.brk + size }, bp)

/-- `extend_heap` from `src/mm.c` (lines 278-294): write the new free
block's header/footer and the fresh epilogue, then `return coalesce(bp)`. -/
def extend_heap (s : Heap) (words : Nat) : Heap × Nat :=
  let size := (if words % 2 = 1 then (words + 1) * 4 else words * 4) % W64
  let bp := s.brk
  let m1 := PUT s.mem (bp - 4) (PACK size 0)
  let m2 := PUT m1 (FTRP m1 bp) (PACK size 0)
  let m3 := PUT m2 (NEXT_BLKP m2 bp - 4) (PACK 0 1)
  coalesce { s with mem := m3, brk := s.brk + size } bp

/-- `mm_init` from `src/mm.c` (lines 124-149): padding word, prologue
header/footer, epilogue header, then a CHUNKSIZE (4096-byte, 1024-word)
extension. -/
def mm_init (s : Heap) : Heap :=
  let hl := s.brk
  let s1 : Heap := { s with brk := s.brk + 16, heap_base := hl, root := 0 }
  let m1 := PUT s1.mem hl 0
  let m2 := PUT m1 (hl + 4) (PACK 8 1)
  let m3 := PUT m2 (hl + 8) (PACK 8 1)
  let m4 := PUT m3 (hl + 12) (PACK 0 1)
  (extend_heap { s1 with mem := m4, heap_listp := hl + 8 } 1024).1

/-- First-fit walk of the free list from `root` (lines 434-441).  The fuel
argument only bounds the walk: it is chosen `≥ brk + 1`, which exceeds the
number of free blocks (each at least 16 bytes) of any well-formed heap, so
on such heaps the fuel never runs out. -/
def find_fitGo (base : Nat) (m : Mem) (asize : Nat) : Nat → Nat → Option Nat
  | 0, _ => none
  | _ + 1, 0 => none
  | fuel + 1, bp =>
      if GET_SIZE (GET m (bp - 4)) ≥ asize then some bp
      else find_fitGo base m asize fuel (get_next_free base m bp)

/-- `find_fit` (first fit from the free-list root). -/
def find_fit (s : Heap) (asize : Nat) : Option Nat :=
  find_fitGo s.heap_base s.mem asize (s.brk + 1) s.root

/-- `place` from `src/mm.c` (lines 369-408).  In the split branch the
remainder inherits the old block's free-list position; in the no-split
branch the block is removed from the list and `root` is patched when it
pointed at the block. -/
def place (s : Heap) (bp asize : Nat) : Heap :=
  let csize := GET_SIZE (GET s.mem (bp - 4))
  let old_bp := bp
  if (csize + W64 - asize % W64) % W64 ≥ 16 then
    let m1 := PUT s.mem (bp - 4) (PACK asize 1)
    let m2 := PUT m1 (FTRP m1 bp) (PACK asize 1)
    let bp2 := NEXT_BLKP m2 bp
    let m3 := PUT m2 (bp2 - 4) (PACK ((csize + W64 - asize % W64) % W64) 0)
    let m4 := PUT m3 (FTRP m3 bp2) (PACK ((csize + W64 - asize % W64) % W64) 0)
    let m5 := put_prev_val m4 bp2 (prev_free_val m4 old_bp)
    let m6 := put_next_val m5 bp2 (next_free_val m5 old_bp)
    let m7 := if prev_free_val m6 bp2 ≠ 0 then
                put_next_val m6 (itop s.heap_base (prev_free_val m6 bp2)) (ptoi s.heap_base bp2)
              else m6
    let m8 := if next_free_val m7 bp2 ≠ 0 then
                put_prev_val m7 (itop s.heap_base (next_free_val m7 bp2)) (ptoi s.heap_base bp2)
              else m7
    if old_bp = s.root then { s with mem := m8, root := bp2 }
    else { s with mem := m8 }
  else
    let s1 := deleteFree s bp
    let m2 := PUT s1.mem (bp - 4) (PACK csize 1)
    let m3 := PUT m2 (FTRP m2 bp) (PACK csize 1)
    if s1.root = old_bp then
      let r := get_next_free s1.heap_base m3 s1.root
      if r ≠ 0 then { s1 with mem := put_prev_val m3 r 0, root := r }
      else { s1 with mem := m3, root := r }
    else { s1 with mem := m3 }

/-- The body of `malloc` after the lazy-initialisation check (lines
166-191).  `mem_sbrk` is modelled as always succeeding, so the
extend-failure null return of line 188 is unreachable here. -/
def mallocInited (s : Heap) (size : Nat) : Heap × Option Nat :=
  if size = 0 then (s, none)
  else
    let asize := if size ≤ 8 then 16 else (8 * (((size + 8 + (8 - 1)) % W64) / 8)) % W64
    match find_fit s asize with
    | some bp => (place s bp asize, some bp)
    | none =>
        let extendsize := max asize 4096
        let p := extend_heap s (extendsize / 4)
        (place p.1 p.2 asize, some p.2)

/-- `malloc` from `src/mm.c` (lines 155-192): initialise the heap first if
`heap_listp` is 0, then serve the request. -/
def malloc (s : Heap) (size : Nat) : Heap × Option Nat :=
  mallocInited (if s.heap_listp = 0 then mm_init s else s) size

/-- The part of `free` after the size read and the initialisation check
(lines 210-213): mark header and footer free, then coalesce. -/
def freeBody (s : Heap) (bp size : Nat) : Heap :=
  let m1 := PUT s.mem (bp - 4) (PACK size 0)
  let m2 := PUT m1 (FTRP m1 bp) (PACK size 0)
  (coalesce { s with mem := m2 } bp).1

/-- `free` from `src/mm.c` (lines 199-215).  Note the source reads
`GET_SIZE(HDRP(bp))` (line 205) before the `heap_listp == 0` check
(line 207), so the size comes from the pre-initialisation memory. -/
def free (s : Heap) (bp : Nat) : Heap :=
  if bp = 0 then s
  else
    let size := GET_SIZE (GET s.mem (bp - 4))
    freeBody (if s.heap_listp = 0 then mm_init s else s) bp size

/-- The copy length of `realloc` (lines 245-246): `oldsize` starts as the
full block size from the header and is lowered to `size` when smaller. -/
def reallocCopyLen (oldBlkSize n : Nat) : Nat := if n < oldBlkSize then n else oldBlkSize

/-- `realloc` from `src/mm.c` (lines 220-253). -/
def realloc (s : Heap) (ptr size : Nat) : Heap × Option Nat :=
  if size = 0 then (free s ptr, none)
  else if ptr = 0 then malloc s size
  else
    match malloc s size with
    | (s1, none) => (s1, none)
    | (s1, some newptr) =>
        let oldsize := GET_SIZE (GET s1.mem (ptr - 4))
        let len := reallocCopyLen oldsize size
        let s2 := { s1 with mem := memcpyW s1.mem newptr ptr len }
        (free s2 ptr, some newptr)

/-- `calloc` from `src/mm.c` (lines 260-268): `bytes = nmemb*size` with
`size_t` wrap-around and no overflow check, then `malloc` and `memset`.
The source calls `memset` even on a null result; in the model a null
result only arises for `bytes = 0`, where `memset` is a no-op. -/
def calloc (s : Heap) (nmemb size : Nat) : Heap × Option Nat :=
  let bytes := nmemb * size % W64
  match malloc s bytes with
  | (s1, none) => (s1, none)
  | (s1, some p) => ({ s1 with mem := memsetW s1.mem p bytes }, some p)

/-- A fresh process state: zeroed memory, nothing obtained from the memory
system yet, `heap_listp = 0` (not initialised). -/
def heap0 : Heap :=
  { mem := fun _ => 0, brk := 0, heap_base := 0, heap_listp := 0, root := 0 }

end MM

namespace Seg

/-- Allocator state of `src/mm-seglist.c`: the word memory, the 29-entry
array of free-list heads (the source keeps it in band at the region head
and accesses it through `GET_PTR`/`PUT_PTR`; it aliases nothing else, so
it is modelled as a map from bucket index to head pointer, 0 for NULL),
the sbrk break and `heap_listp` (0 before `mm_init`). -/
structure Heap where
  mem : Mem
  heads : Nat → Nat
  brk : Nat
  heap_listp : Nat

/-- `ptoi`: pointer to 32-bit offset from `mem_heap_lo()` (address 0). -/
def ptoi (p : Nat) : Nat := p % W32

/-- `get_prev_free_bp` (the predecessor link is the first word). -/
def get_prev_free_bp (m : Mem) (bp : Nat) : Nat := GET m bp

/-- `get_next_free_bp` (the successor link is the second word). -/
def get_next_free_bp (m : Mem) (bp : Nat) : Nat := GET m (bp + 4)

/-- `countOne` from `src/mm-seglist.c` (lines 376-385): shift `n` right
counting iterations, stopping at `PWR2_SIZES - 1 = 13`. -/
def countOneGo (n count : Nat) : Nat :=
  if h : n = 0 then count
  else
    let c := count + 1
    if c = 13 then c
    else countOneGo (n / 2) c
termination_by n
decreasing_by exact Nat.div_lt_self (Nat.pos_of_ne_zero h) (by decide)

/-- `countOne n` = `countOneGo n 0`. -/
def countOne (n : Nat) : Nat := countOneGo n 0

/-- `hashBlkSize` from `src/mm-seglist.c` (lines 365-374), returned as a
bucket index (the source returns `free_lists_base + idx * DSIZE`).  The
`words - 4` subtraction is `size_t` arithmetic and wraps. -/
def hashIdx (asize : Nat) : Nat :=
  let words := asize / 4
  if words ≤ 32 then ((words + W64 - 4) % W64) / 2
  else 15 + countOne (words >>> 6)

/-- `insertBlk` from `src/mm-seglist.c` (lines 310-327): plain LIFO splice
at the head of the bucket selected by the block size. -/
def insertBlk (s : Heap) (bp : Nat) : Heap :=
  let idx := hashIdx (GET_SIZE (GET s.mem (bp - 4)))
  if s.heads idx ≠ 0 then
    let head_bp := s.heads idx
    let m1 := PUT s.mem bp 0
    let m2 := PUT m1 (bp + 4) (ptoi head_bp)
    let m3 := PUT m2 head_bp (ptoi bp)
    { s with mem := m3, heads := fun i => if i = idx then bp else s.heads i }
  else
    let m1 := PUT s.mem bp 0
    let m2 := PUT m1 (bp + 4) 0
    { s with mem := m2, heads := fun i => if i = idx then bp else s.heads i }

/-- `deleteBlk` from `src/mm-seglist.c` (lines 286-303): unsplice `bp`,
updating the bucket head whenever `bp` has no predecessor. -/
def deleteBlk (s : Heap) (bp : Nat) : Heap :=
  let prev := GET s.mem bp
  let next := GET s.mem (bp + 4)
  if prev ≠ 0 then
    let m1 := PUT s.mem (get_prev_free_bp s.mem bp + 4) next
    if next ≠ 0 then { s with mem := PUT m1 (get_next_free_bp m1 bp) prev }
    else { s with mem := m1 }
  else
    let idx := hashIdx (GET_SIZE (GET s.mem (bp - 4)))
    let heads' := fun i => if i = idx then next else s.heads i
    if next ≠ 0 then
      { s with mem := PUT s.mem (get_next_free_bp s.mem bp) prev, heads := heads' }
    else { s with heads := heads' }

/-- `coalesce` from `src/mm-seglist.c` (lines 234-278): boundary-tag merge
in four cases; no case inserts into the free lists. -/
def coalesce (s : Heap) (bp : Nat) : Heap × Nat :=
  let prev_alloc := GET_ALLOC (GET s.mem (FTRP s.mem (PREV_BLKP s.mem bp)))
  let next_alloc := GET_ALLOC (GET s.mem (NEXT_BLKP s.mem bp - 4))
  let size := GET_SIZE (GET s.mem (bp - 4))
  if prev_alloc ≠ 0 ∧ next_alloc ≠ 0 then
    (s, bp)
  else if prev_alloc ≠ 0 ∧ next_alloc = 0 then
    let sz := size + GET_SIZE (GET s.mem (NEXT_BLKP s.mem bp - 4))
    let s1 := deleteBlk s (NEXT_BLKP s.mem bp)
    let m2 := PUT s1.mem (bp - 4) (PACK sz 0)
    let m3 := PUT m2 (FTRP m2 bp) (PACK sz 0)
    ({ s1 with mem := m3 }, bp)
  else if prev_alloc = 0 ∧ next_alloc ≠ 0 then
    let sz := size + GET_SIZE (GET s.mem (PREV_BLKP s.mem bp - 4))
    let s1 := deleteBlk s (PREV_BLKP s.mem bp)
    let m2 := PUT s1.mem (FTRP s1.mem bp) (PACK sz 0)
    let m3 := PUT m2 (PREV_BLKP m2 bp - 4) (PACK sz 0)
    ({ s1 with mem := m3 }, PREV_BLKP m3 bp)
  else
    let sz := size + GET_SIZE (GET s.mem (PREV_BLKP s.mem bp - 4)) +
              GET_SIZE (GET s.mem (NEXT_BLKP s.mem bp - 4))
    let s1 := deleteBlk s (NEXT_BLKP s.mem bp)
    let s2 := deleteBlk s1 (PREV_BLKP s1.mem bp)
    let m3 := PUT s2.mem (PREV_BLKP s2.mem bp - 4) (PACK sz 0)
    let m4 := PUT m3 (FTRP m3 (NEXT_BLKP m3 bp)) (PACK sz 0)
    ({ s2 with mem := m4 }, PREV_BLKP m4 bp)

/-- The header/footer/epilogue writes of the segregated `extend_heap`
(lines 215-221), before the final `coalesce`. -/
def extendWrites (s : Heap) (words : Nat) : Heap × Nat :=
  let size := (if words % 2 = 1 then (words + 1) * 4 else words * 4) % W64
  let bp := s.brk
  let m1 := PUT s.mem (bp - 4) (PACK size 0)
  let m2 := PUT m1 (FTRP m1 bp) (PACK size 0)
  let m3 := PUT m2 (NEXT_BLKP m2 bp - 4) (PACK 0 1)
  ({ s with mem := m3, brk := s.brk + size }, bp)

/-- `extend_heap` from `src/mm-seglist.c` (lines 210-225): write the new
free block's header/footer and the fresh epilogue, then
`return coalesce(bp)`. -/
def extend_heap (s : Heap) (words : Nat) : Heap × Nat :=
  let size := (if words % 2 = 1 then (words + 1) * 4 else words * 4) % W64
  let bp := s.brk
  let m1 := PUT s.mem (bp - 4) (PACK size 0)
  let m2 := PUT m1 (FTRP m1 bp) (PACK size 0)
  let m3 := PUT m2 (NEXT_BLKP m2 bp - 4) (PACK 0 1)
  coalesce { s with mem := m3, brk := s.brk + size } bp

/-- `mm_init` from `src/mm-seglist.c` (lines 119-141): obtain
`29 * 8 + 16` bytes, zero the 29 bucket heads, then write padding,
prologue header/footer and epilogue header. -/
def mm_init (s : Heap) : Heap :=
  let hl := s.brk
  let s1 : Heap := { s with brk := s.brk + 29 * 8 + 16 }
  let heads' := fun i => if i < 29 then 0 else s1.heads i
  let m1 := PUT s1.mem (hl + 232) 0
  let m2 := PUT m1 (hl + 232 + 4) (PACK 8 1)
  let m3 := PUT m2 (hl + 232 + 8) (PACK 8 1)
  let m4 := PUT m3 (hl + 232 + 12) (PACK 0 1)
  { s1 with mem := m4, heads := heads', heap_listp := hl + 232 + 8 }

/-- Walk of one bucket's list (inner loop of `find_fit`, lines 343-347).
The fuel bound exceeds the length of any list of a well-formed heap. -/
def findInList (m : Mem) (asize : Nat) : Nat → Nat → Option Nat
  | 0, _ => none
  | _ + 1, 0 => none
  | fuel + 1, bp =>
      if GET_SIZE (GET m (bp - 4)) ≥ asize then some bp
      else findInList m asize fuel (get_next_free_bp m bp)

/-- Outer loop of `find_fit` (lines 341-348): scan buckets from the hashed
index while the array pointer stays below `free_lists_end` (index 29). -/
def find_fitGo (s : Heap) (asize : Nat) : Nat → Nat → Option Nat
  | 0, _ => none
  | fuel + 1, idx =>
      if idx < 29 then
        match findInList s.mem asize (s.brk + 1) (s.heads idx) with
        | some bp => some bp
        | none => find_fitGo s asize fuel (idx + 1)
      else none

/-- `find_fit` from `src/mm-seglist.c` (lines 335-351). -/
def find_fit (s : Heap) (asize : Nat) : Option Nat :=
  find_fitGo s asize 29 (hashIdx asize)

/-- `place` from `src/mm-seglist.c` (lines 356-359): an unimplemented stub
whose body is only the self-assignments `bp = bp; asize = asize;`. -/
def place (s : Heap) (bp asize : Nat) : Heap := s

/-- `malloc` from `src/mm-seglist.c` (lines 146-154): a stub that calls
`extend_heap(0)`, `find_fit(0)` and `place(0, 0)` and returns NULL. -/
def malloc (s : Heap) (size : Nat) : Heap × Option Nat :=
  let s1 := (extend_heap s 0).1
  let _r := find_fit s1 0
  let s2 := place s1 0 0
  (s2, none)

/-- `free` from `src/mm-seglist.c` (lines 159-175): mark free, coalesce,
then insert the coalesced block. -/
def free (s : Heap) (bp : Nat) : Heap :=
  if bp = 0 then s
  else
    let size := GET_SIZE (GET s.mem (bp - 4))
    let m1 := PUT s.mem (bp - 4) (PACK size 0)
    let m2 := PUT m1 (FTRP m1 bp) (PACK size 0)
    let p := coalesce { s with mem := m2 } bp
    insertBlk p.1 p.2

/-- `realloc` from `src/mm-seglist.c` (lines 180-184): a stub that returns
NULL and leaves the state untouched. -/
def realloc (s : Heap) (oldptr size : Nat) : Heap × Option Nat := (s, none)

/-- `calloc` from `src/mm-seglist.c` (lines 191-200): wrapping product, the
stub `malloc`, then `memset` through the result.  The stub `malloc` always
returns NULL; the source's `memset(NULL, 0, bytes)` crash for `bytes ≠ 0`
is outside the model (no settled claim depends on that path). -/
def calloc (s : Heap) (nmemb size : Nat) : Heap × Option Nat :=
  let bytes := nmemb * size % W64
  match malloc s bytes with
  | (s1, none) => (s1, none)
  | (s1, some p) => ({ s1 with mem := memsetW s1.mem p bytes }, some p)

/-- A fresh process state for the segregated variant. -/
def heap0 : Heap :=
  { mem := fun _ => 0, heads := fun _ => 0, brk := 0, heap_listp := 0 }

end Seg

/-! Concrete allocator states used by the closed statements below. -/

/-- The explicit-list heap right after the first `mm_init` from a fresh
process state: prologue at 4-12, one 4096-byte free block with payload 16,
epilogue at 4108, `brk = 4112`, `root = 16`. -/
def mmHeapInit : MM.Heap := MM.mm_init MM.heap0

/-- A segregated heap right after `mm_init` with one allocated 16-byte
block appended: header `PACK 16 1 = 17` at 244, payload 248, footer 17 at
256, fresh epilogue at 260, `brk = 264`. -/
def segR : Seg.Heap :=
  let s := Seg.mm_init Seg.heap0
  { s with mem := PUT (PUT (PUT s.mem 244 17) 256 17) 260 1, brk := 264 }

/-- An explicit-list heap with a stale `root = 24` lying strictly inside
the free block at payload 16 (header size 32, so the block spans 12-44):
exactly the state left behind by a coalesce that consumed the block the
root pointed at.  Word 24 (the stale root's successor field) is 0 and word
28 (its predecessor field) holds the sentinel 99. -/
def s4 : MM.Heap :=
  { mem := fun a => if a = 12 then 32 else if a = 24 then 0 else if a = 28 then 99 else 0,
    brk := 64, heap_base := 0, heap_listp := 8, root := 24 }

/-- An explicit-list heap whose free list holds exactly one block, at
payload 16 (header size 16, both link words 0, `root = 16`). -/
def s5 : MM.Heap :=
  { mem := fun a => if a = 12 then 16 else 0, brk := 48, heap_base := 0,
    heap_listp := 8, root := 16 }

/-- A segregated heap with exactly one free 16-byte block at payload 248
(header 16 at 244, footer at 256, both links 0), sole element of bucket 0,
with allocated prologue and epilogue around it. -/
def segD : Seg.Heap :=
  let s := Seg.mm_init Seg.heap0
  { s with mem := PUT (PUT (PUT s.mem 244 16) 256 16) 260 1, brk := 264,
           heads := fun i => if i = 0 then 248 else 0 }

/-- An explicit-list heap with a single just-freed 16-byte block at
payload 16 whose two neighbors (prologue and an allocated 16-byte block at
payload 32) are allocated, and an empty free list. -/
def s7 : MM.Heap :=
  { mem := fun a => if a = 4 then 9 else if a = 8 then 9 else if a = 12 then 16
      else if a = 24 then 16 else if a = 28 then 17 else 0,
    brk := 48, heap_base := 0, heap_listp := 8, root := 0 }

/-- An explicit-list heap whose free list is `16 -> 48` (block A at payload
16, size 16; an allocated block at 32; block B at payload 48, size 32,
with predecessor link 16), `root = 16`. -/
def s9 : MM.Heap :=
  { mem := fun a => if a = 4 then 9 else if a = 8 then 9 else if a = 12 then 16
      else if a = 16 then 48 else if a = 20 then 0 else if a = 24 then 16
      else if a = 28 then 17 else if a = 40 then 17
      else if a = 44 then 32 else if a = 48 then 0 else if a = 52 then 16
      else if a = 72 then 32 else if a = 76 then 1 else 0,
    brk := 80, heap_base := 0, heap_listp := 8, root := 16 }

/-! Helper lemmas (shared; not tied to a single claim). -/

theorem log2_succ (n : Nat) (h : 2 ≤ n) : Nat.log2 n = Nat.log2 (n / 2) + 1 := by
  rw [Nat.log2]
  simp [h]

theorem countOneGo_eq : ∀ n c : Nat, c < 13 →
    Seg.countOneGo n c = if n = 0 then c else min (c + Nat.log2 n + 1) 13 := by
  intro n
  induction n using Nat.strong_induction_on with
  | _ n ih =>
    intro c hc
    by_cases hn : n = 0
    · subst hn
      rw [Seg.countOneGo]
      simp
    · rw [Seg.countOneGo, dif_neg hn, if_neg hn]
      show (if c + 1 = 13 then c + 1 else Seg.countOneGo (n / 2) (c + 1)) =
        min (c + Nat.log2 n + 1) 13
      by_cases hc13 : c + 1 = 13
      · rw [if_pos hc13, hc13, min_eq_right (by omega)]
      · rw [if_neg hc13,
          ih (n / 2) (Nat.div_lt_self (Nat.pos_of_ne_zero hn) (by decide)) (c + 1) (by omega)]
        by_cases h2 : n / 2 = 0
        · have hn1 : n = 1 := by omega
          subst hn1
          have hl : Nat.log2 1 = 0 := by simp [Nat.log2]
          rw [if_pos h2, hl]
          omega
        · rw [if_neg h2, log2_succ n (by omega)]
          set k := Nat.log2 (n / 2)
          omega

/-- `countOne n` counts `min (bitlength n, 13)`: 0 on 0, otherwise the
floor logarithm plus one, capped at 13. -/
theorem countOne_eq (n : Nat) :
    Seg.countOne n = if n = 0 then 0 else min (Nat.log2 n + 1) 13 := by
  rw [Seg.countOne, countOneGo_eq n 0 (by decide)]
  simp

/-- In the model (where region extension always succeeds) `malloc` returns
null exactly on a zero-sized request. -/
theorem malloc_ret_none_iff (s : MM.Heap) (n : Nat) :
    (MM.malloc s n).2 = none ↔ n = 0 := by
  by_cases h : n = 0
  · simp [MM.malloc, MM.mallocInited, h]
  · simp only [MM.malloc, MM.mallocInited, if_neg h]
    split <;> simp [h]

/-- `calloc`'s returned pointer is exactly `malloc`'s at the wrapped
product: the request actually issued is `nmemb * size` reduced mod 2^64. -/
theorem calloc_snd (s : MM.Heap) (nmemb size : Nat) :
    (MM.calloc s nmemb size).2 = (MM.malloc s (nmemb * size % W64)).2 := by
  rcases hm : MM.malloc s (nmemb * size % W64) with ⟨s1, p⟩
  cases p <;> simp [MM.calloc, hm]

/-! Definitions written from the specification's words (not from the
source), used to compare spec formulas against the embedded code. -/

/-- The bucket-index formula exactly as claim C6 states it: `(w - 4) / 2`
when `w ≤ 32`, and otherwise `15 + floor(log2 (w / 64))` clamped to 28,
where `w = s / 4`. -/
def specBucketClaim (s : Nat) : Nat :=
  let w := s / 4
  if w ≤ 32 then (w - 4) / 2 else min (15 + Nat.log2 (w / 64)) 28

namespace MM

/-- The split branch of `place` as the source actually implements it
(lines 376-396): mark the first `asize` bytes allocated, write the
remainder's header/footer free, copy the old block's two link fields into
the remainder, redirect the neighbors' links to the remainder, and move
`root` to the remainder only when the old block was the root.  No
`deleteFree`/`insertFree` call occurs. -/
def placeSplit (s : Heap) (bp asize : Nat) : Heap :=
  let csize := GET_SIZE (GET s.mem (bp - 4))
  let old_bp := bp
  let m1 := PUT s.mem (bp - 4) (PACK asize 1)
  let m2 := PUT m1 (FTRP m1 bp) (PACK asize 1)
  let bp2 := NEXT_BLKP m2 bp
  let m3 := PUT m2 (bp2 - 4) (PACK ((csize + W64 - asize % W64) % W64) 0)
  let m4 := PUT m3 (FTRP m3 bp2) (PACK ((csize + W64 - asize % W64) % W64) 0)
  let m5 := put_prev_val m4 bp2 (prev_free_val m4 old_bp)
  let m6 := put_next_val m5 bp2 (next_free_val m5 old_bp)
  let m7 := if prev_free_val m6 bp2 ≠ 0 then
              put_next_val m6 (itop s.heap_base (prev_free_val m6 bp2)) (ptoi s.heap_base bp2)
            else m6
  let m8 := if next_free_val m7 bp2 ≠ 0 then
              put_prev_val m7 (itop s.heap_base (next_free_val m7 bp2)) (ptoi s.heap_base bp2)
            else m7
  if old_bp = s.root then { s with mem := m8, root := bp2 }
  else { s with mem := m8 }

/-- The no-split branch of `place` as the source implements it (lines
397-407): `deleteFree` the block, mark it fully allocated, and when `root`
still equals the block, advance `root` to its successor and clear that
successor's predecessor link. -/
def placeNoSplit (s : Heap) (bp asize : Nat) : Heap :=
  let csize := GET_SIZE (GET s.mem (bp - 4))
  let old_bp := bp
  let s1 := deleteFree s bp
  let m2 := PUT s1.mem (bp - 4) (PACK csize 1)
  let m3 := PUT m2 (FTRP m2 bp) (PACK csize 1)
  if s1.root = old_bp then
    let r := get_next_free s1.heap_base m3 s1.root
    if r ≠ 0 then { s1 with mem := put_prev_val m3 r 0, root := r }
    else { s1 with mem := m3, root := r }
  else { s1 with mem := m3 }

/-- The four-case boundary-tag merge of spec section 4.4's table over the
explicit-list layout: examine the two neighbors' alloc bits, remove the
free neighbor(s) from the index with `deleteFree`, rewrite the boundary
tags with the merged size, and return the merged block's payload pointer —
performing no insertion.  This is `coalesce` (lines 301-362) with the four
`insertFree` calls stripped. -/
def coalesceMerge (s : Heap) (bp : Nat) : Heap × Nat :=
  let prev_alloc := GET_ALLOC (GET s.mem (FTRP s.mem (PREV_BLKP s.mem bp)))
  let next_alloc := GET_ALLOC (GET s.mem (NEXT_BLKP s.mem bp - 4))
  let size := GET_SIZE (GET s.mem (bp - 4))
  if prev_alloc ≠ 0 ∧ next_alloc ≠ 0 then
    (s, bp)
  else if prev_alloc ≠ 0 ∧ next_alloc = 0 then
    let sz := size + GET_SIZE (GET s.mem (NEXT_BLKP s.mem bp - 4))
    let s1 := deleteFree s (NEXT_BLKP s.mem bp)
    let m2 := PUT s1.mem (bp - 4) (PACK sz 0)
    let m3 := PUT m2 (FTRP m2 bp) (PACK sz 0)
    ({ s1 with mem := m3 }, bp)
  else if prev_alloc = 0 ∧ next_alloc ≠ 0 then
    let sz := size + GET_SIZE (GET s.mem (PREV_BLKP s.mem bp - 4))
    let s1 := deleteFree s (PREV_BLKP s.mem bp)
    let m2 := PUT s1.mem (FTRP s1.mem bp) (PACK sz 0)
    let m3 := PUT m2 (PREV_BLKP m2 bp - 4) (PACK sz 0)
    let bp2 := PREV_BLKP m3 bp
    ({ s1 with mem := m3 }, bp2)
  else
    let sz := size + GET_SIZE (GET s.mem (PREV_BLKP s.mem bp - 4)) +
              GET_SIZE (GET s.mem (FTRP s.mem (NEXT_BLKP s.mem bp)))
    let s1 := deleteFree s (NEXT_BLKP s.mem bp)
    let s2 := deleteFree s1 (PREV_BLKP s1.mem bp)
    let m3 := PUT s2.mem (PREV_BLKP s2.mem bp - 4) (PACK sz 0)
    let m4 := PUT m3 (FTRP m3 (NEXT_BLKP m3 bp)) (PACK sz 0)
    let bp2 := PREV_BLKP m4 bp
    ({ s2 with mem := m4 }, bp2)

/-- The header/footer clearing writes of `free` (lines 210-211), before
the call to `coalesce`. -/
def markFreeTags (s : Heap) (bp size : Nat) : Heap :=
  let m1 := PUT s.mem (bp - 4) (PACK size 0)
  let m2 := PUT m1 (FTRP m1 bp) (PACK size 0)
  { s with mem := m2 }

end MM

namespace Seg

/-- The four-case boundary-tag merge of spec section 4.4's table over the
segregated layout: examine the two neighbors' alloc bits, remove the free
neighbor(s) from their buckets with `deleteBlk`, rewrite the boundary tags
with the merged size, and return the merged block's payload pointer —
performing no insertion into any bucket. -/
def coalesceMerge (s : Heap) (bp : Nat) : Heap × Nat :=
  let prev_alloc := GET_ALLOC (GET s.mem (FTRP s.mem (PREV_BLKP s.mem bp)))
  let next_alloc := GET_ALLOC (GET s.mem (NEXT_BLKP s.mem bp - 4))
  let size := GET_SIZE (GET s.mem (bp - 4))
  if prev_alloc ≠ 0 ∧ next_alloc ≠ 0 then
    (s, bp)
  else if prev_alloc ≠ 0 ∧ next_alloc = 0 then
    let sz := size + GET_SIZE (GET s.mem (NEXT_BLKP s.mem bp - 4))
    let s1 := deleteBlk s (NEXT_BLKP s.mem bp)
    let m2 := PUT s1.mem (bp - 4) (PACK sz 0)
    let m3 := PUT m2 (FTRP m2 bp) (PACK sz 0)
    ({ s1 with mem := m3 }, bp)
  else if prev_alloc = 0 ∧ next_alloc ≠ 0 then
    let sz := size + GET_SIZE (GET s.mem (PREV_BLKP s.mem bp - 4))
    let s1 := deleteBlk s (PREV_BLKP s.mem bp)
    let m2 := PUT s1.mem (FTRP s1.mem bp) (PACK sz 0)
    let m3 := PUT m2 (PREV_BLKP m2 bp - 4) (PACK sz 0)
    ({ s1 with mem := m3 }, PREV_BLKP m3 bp)
  else
    let sz := size + GET_SIZE (GET s.mem (PREV_BLKP s.mem bp - 4)) +
              GET_SIZE (GET s.mem (NEXT_BLKP s.mem bp - 4))
    let s1 := deleteBlk s (NEXT_BLKP s.mem bp)
    let s2 := deleteBlk s1 (PREV_BLKP s1.mem bp)
    let m3 := PUT s2.mem (PREV_BLKP s2.mem bp - 4) (PACK sz 0)
    let m4 := PUT m3 (FTRP m3 (NEXT_BLKP m3 bp)) (PACK sz 0)
    ({ s2 with mem := m4 }, PREV_BLKP m4 bp)

/-- The header/footer clearing writes of the segregated `free` (lines
167-168), before the call to `coalesce`. -/
def markFreeTags (s : Heap) (bp size : Nat) : Heap :=
  let m1 := PUT s.mem (bp - 4) (PACK size 0)
  let m2 := PUT m1 (FTRP m1 bp) (PACK size 0)
  { s with mem := m2 }

end Seg

/-! Claim theorems. -/

/-- C1 counterexample: for `nmemb = 2^63`, `size = 2` the product overflows
(`2^63 * 2 ≥ 2^64`, wrapping to 0).  `calloc` on a fresh state does return
null, but only because the wrapped total is 0; it still mutates allocator
state: the lazy `mm_init` inside `malloc` grows the region from 0 to 4112
bytes, contradicting "returns null without mutating allocator state (no
region growth, no block written, no byte stored)". -/
theorem calloc_overflow_grows_region :
    2 ^ 63 * 2 ≥ 2 ^ 64 ∧
    MM.heap0.brk = 0 ∧
    (MM.calloc MM.heap0 (2 ^ 63) 2).2 = none ∧
    (MM.calloc MM.heap0 (2 ^ 63) 2).1.brk = 4112 :=
  ⟨by decide, rfl, rfl, rfl⟩

/-- C1 (amended): `calloc` computes `total = nmemb * size` with `size_t`
wrap-around and no overflow detection, passes exactly that wrapped total
to `malloc`, and (extension always succeeding) returns null precisely when
the wrapped total is 0 — not when the multiplication overflows. -/
theorem calloc_wrapped_product :
    (∀ (s : MM.Heap) (nmemb size : Nat),
        (MM.calloc s nmemb size).2 = (MM.malloc s (nmemb * size % W64)).2) ∧
    (∀ (s : MM.Heap) (nmemb size : Nat),
        ((MM.calloc s nmemb size).2 = none ↔ nmemb * size % W64 = 0)) :=
  ⟨calloc_snd, fun s nmemb size => by rw [calloc_snd, malloc_ret_none_iff]⟩

/-- C2 counterexample: for a block of total size 16 (payload 8 bytes) and
request `n = 12`, the source's copy length (lines 245-247) is
`min(n, block size) = 12`, not `min(n, payload size) = 8`, and `memcpy`
therefore reads byte offset 8 — the first byte past the payload, inside
the footer. -/
theorem realloc_reads_past_payload :
    MM.reallocCopyLen 16 12 = 12 ∧
    MM.reallocCopyLen 16 12 ≠ min 12 (16 - 8) ∧
    memcpyBytes (fun i => i) (MM.reallocCopyLen 16 12) 8 = some 8 ∧
    16 - 8 ≤ 8 := by decide

/-- C2 (amended): `realloc` copies exactly `min(n, block_size(p))` bytes
(where `block_size = payload_size + 8`), so the first
`min(n, payload_size)` bytes of the new buffer equal the corresponding
bytes of the old one, and no byte at or beyond the end of the block
(header + payload + footer) is read — but up to 8 bytes beyond the
payload (the footer area) may be read when `payload < n`. -/
theorem realloc_copy_semantics :
    ∀ (c n : Nat) (src : Nat → Nat), 8 ≤ c →
      MM.reallocCopyLen c n = min n c ∧
      (∀ i, i < min n (c - 8) → memcpyBytes src (MM.reallocCopyLen c n) i = some (src i)) ∧
      (∀ i, c ≤ i → memcpyBytes src (MM.reallocCopyLen c n) i = none) := by
  intro c n src hc
  have hlen : MM.reallocCopyLen c n = min n c := by
    simp only [MM.reallocCopyLen, Nat.min_def]
    split_ifs <;> omega
  refine ⟨hlen, ?_, ?_⟩
  · intro i hi
    have hil : i < MM.reallocCopyLen c n := by rw [hlen]; omega
    simp [memcpyBytes, hil]
  · intro i hi
    have hil : ¬ i < MM.reallocCopyLen c n := by rw [hlen]; omega
    simp [memcpyBytes, hil]

/-- C2 witness: the amended copy law applied at block size 16, request 12,
identity source bytes. -/
theorem realloc_copy_semantics_witness :
    8 ≤ 16 ∧
    (MM.reallocCopyLen 16 12 = min 12 16 ∧
      (∀ i, i < min 12 (16 - 8) →
        memcpyBytes (fun j => j) (MM.reallocCopyLen 16 12) i = some i) ∧
      (∀ i, 16 ≤ i → memcpyBytes (fun j => j) (MM.reallocCopyLen 16 12) i = none)) :=
  ⟨by decide, realloc_copy_semantics 16 12 (fun j => j) (by decide)⟩

/-- C3 counterexample: in the segregated variant `realloc(p, 0)` returns
null but does not free `p`: on `segR` (allocated 16-byte block at payload
248) the state is returned unchanged and the block's header keeps its
allocated bit, whereas `free` on the same state clears it. -/
theorem seg_realloc_zero_does_not_free :
    (Seg.realloc segR 248 0).2 = none ∧
    (Seg.realloc segR 248 0).1 = segR ∧
    GET_ALLOC (GET (Seg.realloc segR 248 0).1.mem 244) = 1 ∧
    GET_ALLOC (GET (Seg.free segR 248).mem 244) = 0 :=
  ⟨rfl, rfl, by decide, by decide⟩

/-- C3 (amended): the explicit-list variant satisfies all four documented
edge cases: `malloc(0)` returns null, `free(NULL)` leaves the state
unchanged, `realloc(NULL, n)` is exactly `malloc(n)` for `n ≠ 0`, and
`realloc(p, 0)` is exactly `free(p)` followed by a null return.  In the
segregated variant `malloc(0)` returns null and `free(NULL)` is a no-op,
but `realloc` is a stub: `realloc(p, n)` always returns null with the
state untouched, so `realloc(p, 0)` does not free `p` and
`realloc(NULL, n)` does not perform `malloc(n)`'s effects. -/
theorem api_edge_case_equalities :
    (∀ s : MM.Heap, (MM.malloc s 0).2 = none) ∧
    (∀ s : MM.Heap, MM.free s 0 = s) ∧
    (∀ (s : MM.Heap) (n : Nat), n ≠ 0 → MM.realloc s 0 n = MM.malloc s n) ∧
    (∀ (s : MM.Heap) (p : Nat), MM.realloc s p 0 = (MM.free s p, none)) ∧
    (∀ s : Seg.Heap, (Seg.malloc s 0).2 = none) ∧
    (∀ s : Seg.Heap, Seg.free s 0 = s) ∧
    (∀ (s : Seg.Heap) (p n : Nat), Seg.realloc s p n = (s, none)) := by
  refine ⟨fun s => rfl, fun s => rfl, ?_, fun s p => rfl, fun s => rfl,
    fun s => rfl, fun s p n => rfl⟩
  intro s n h
  simp [MM.realloc, h]

/-- C3 witness: the hypothesis-bearing conjunct applied at `n = 24` on a
fresh heap. -/
theorem api_edge_case_equalities_witness :
    (24 : Nat) ≠ 0 ∧ MM.realloc MM.heap0 0 24 = MM.malloc MM.heap0 24 :=
  ⟨by decide, api_edge_case_equalities.2.2.1 MM.heap0 24 (by decide)⟩

/-- C4: evaluation of `insertFree` at a reachable stale-root state.  On
`s4` (`root = 24` strictly inside the free block at 16) the claimed plain
LIFO splice would set `next(16) := root = 24` and `prev(24) := 16`; the
source instead takes its recovery branch, stores `next(24) = 0` into
`next(16)` and never back-links 24 (word 28 keeps its sentinel 99). -/
theorem insertFree_stale_root_eval :
    s4.root = 24 ∧ (16 < s4.root ∧ s4.root < NEXT_BLKP s4.mem 16) ∧
    (MM.insertFree s4 16).root = 16 ∧
    (MM.insertFree s4 16).mem 16 = 0 ∧
    (MM.insertFree s4 16).mem 16 ≠ 24 ∧
    (MM.insertFree s4 16).mem 28 = 99 := by decide

/-- C5: evaluation at the failing input.  On `s5` the explicit-list free
list holds exactly one block (payload 16, both links 0, `root = 16`);
`deleteFree` leaves `root = 16` because its root update sits inside the
`next ≠ 0` branch, instead of setting the head to `next(B) = 0`.  The
segregated `deleteBlk`, on the analogous state `segD`, correctly clears
the bucket head. -/
theorem deleteFree_sole_element_eval :
    MM.prev_free_val s5.mem 16 = 0 ∧ MM.next_free_val s5.mem 16 = 0 ∧
    s5.root = 16 ∧ (MM.deleteFree s5 16).root = 16 ∧
    segD.heads (Seg.hashIdx 16) = 248 ∧
    GET segD.mem 248 = 0 ∧ GET segD.mem 252 = 0 ∧
    (Seg.deleteBlk segD 248).heads (Seg.hashIdx 16) = 0 := by decide

/-- C6 counterexample: at block size 256 (w = 64 words) the source hashes
to bucket 16 (`countOne(64 >> 6) = countOne(1) = 1`), while the claim's
formula `15 + floor(log2 (w/64))` clamped to 28 gives 15. -/
theorem hash_formula_counterexample :
    Seg.hashIdx 256 = 16 ∧ specBucketClaim 256 = 15 ∧
    Seg.hashIdx 256 ≠ specBucketClaim 256 := by
  have hl : Nat.log2 1 = 0 := by simp [Nat.log2]
  have h1 : Seg.hashIdx 256 = 16 := by
    have e : Seg.hashIdx 256 = 15 + Seg.countOne 1 := rfl
    rw [e, countOne_eq, if_neg (by decide), hl]
    decide
  have h2 : specBucketClaim 256 = 15 := by
    simp only [specBucketClaim]
    norm_num [hl]
  exact ⟨h1, h2, by rw [h1, h2]; decide⟩

/-- C6 (amended): for every block size `a ≥ 16` with `w = a / 4`, the
source's bucket index is `(w - 4) / 2` when `w ≤ 32` and
`15 + min (floor (log2 (w / 32))) 13` otherwise — i.e. bucket 15 for
`w` in (32, 64), bucket `16 + floor(log2 (w/64))` for `w` in [64, 2^18),
and bucket 28 for `w ≥ 2^18` — so every block lands in exactly one of the
29 buckets (index ≤ 28), determined solely by its total size. -/
theorem hash_bucket_formula :
    ∀ a : Nat, 16 ≤ a →
      Seg.hashIdx a =
        (if a / 4 ≤ 32 then (a / 4 - 4) / 2
         else 15 + min (Nat.log2 (a / 4 / 32)) 13) ∧
      Seg.hashIdx a ≤ 28 := by
  intro a ha
  have hw : 4 ≤ a / 4 := by omega
  have hsh : (a / 4) >>> 6 = a / 4 / 64 := by omega
  constructor
  · simp only [Seg.hashIdx]
    split_ifs with h32
    · have he : a / 4 + W64 - 4 = W64 + (a / 4 - 4) := by omega
      rw [he, Nat.add_mod_left, Nat.mod_eq_of_lt
        (lt_of_le_of_lt (show a / 4 - 4 ≤ 28 by omega) (by norm_num [W64]))]
    · rw [hsh, countOne_eq]
      by_cases h64 : a / 4 / 64 = 0
      · have h1 : a / 4 / 32 = 1 := by omega
        have hl : Nat.log2 1 = 0 := by simp [Nat.log2]
        rw [if_pos h64, h1, hl]
        simp
      · have h2 : 2 ≤ a / 4 / 32 := by omega
        have hdd : a / 4 / 32 / 2 = a / 4 / 64 := by rw [Nat.div_div_eq_div_mul]
        rw [if_neg h64, log2_succ _ h2, hdd]
  · simp only [Seg.hashIdx]
    split_ifs with h32
    · have he : a / 4 + W64 - 4 = W64 + (a / 4 - 4) := by omega
      rw [he, Nat.add_mod_left, Nat.mod_eq_of_lt
        (lt_of_le_of_lt (show a / 4 - 4 ≤ 28 by omega) (by norm_num [W64]))]
      omega
    · rw [hsh, countOne_eq]
      split_ifs <;> omega

/-- C6 witness: the amended bucket formula applied at size 256. -/
theorem hash_bucket_formula_witness :
    16 ≤ 256 ∧
    (Seg.hashIdx 256 =
       (if 256 / 4 ≤ 32 then (256 / 4 - 4) / 2
        else 15 + min (Nat.log2 (256 / 4 / 32)) 13) ∧
     Seg.hashIdx 256 ≤ 28) :=
  ⟨by decide, hash_bucket_formula 256 (by decide)⟩

/-- C7 counterexample: on `s7` the just-freed block at 16 has both
neighbors allocated (the no-merge case), yet the explicit-list `coalesce`
does not leave the index alone: it inserts the block itself, moving `root`
from 0 to 16 — contradicting "never itself inserts any block into the
free-list index; insertion is left to the caller". -/
theorem mm_coalesce_inserts :
    GET_ALLOC (GET s7.mem (FTRP s7.mem (PREV_BLKP s7.mem 16))) = 1 ∧
    GET_ALLOC (GET s7.mem (NEXT_BLKP s7.mem 16 - 4)) = 1 ∧
    s7.root = 0 ∧ (MM.coalesce s7 16).2 = 16 ∧
    (MM.coalesce s7 16).1.root = 16 := by decide

/-- C7 (amended), settled in all four cases: the segregated `coalesce`
equals the pure four-case merge `Seg.coalesceMerge` for every state and
block — it removes free neighbors and rewrites tags but never inserts —
while the explicit-list `coalesce` equals the same four-case merge
followed by `insertFree` of the merged block, for every state and block,
so it inserts in every one of the four cases.  The explicit-list `free`
body is exactly the tag-clearing writes followed by `coalesce` (the
insertion happens inside `coalesce`, `free` adds none of its own), and the
segregated `free` is exactly tag-clearing, `coalesce`, then the
caller-side `insertBlk` of the coalesced block. -/
theorem coalesce_insert_discipline :
    (∀ (s : Seg.Heap) (bp : Nat), Seg.coalesce s bp = Seg.coalesceMerge s bp) ∧
    (∀ (s : MM.Heap) (bp : Nat),
        MM.coalesce s bp =
          (MM.insertFree (MM.coalesceMerge s bp).1 (MM.coalesceMerge s bp).2,
           (MM.coalesceMerge s bp).2)) ∧
    (∀ (s : MM.Heap) (bp size : Nat),
        MM.freeBody s bp size = (MM.coalesce (MM.markFreeTags s bp size) bp).1) ∧
    (∀ (s : Seg.Heap) (bp : Nat), bp ≠ 0 →
        Seg.free s bp =
          Seg.insertBlk
            (Seg.coalesce (Seg.markFreeTags s bp (GET_SIZE (GET s.mem (bp - 4)))) bp).1
            (Seg.coalesce (Seg.markFreeTags s bp (GET_SIZE (GET s.mem (bp - 4)))) bp).2) := by
  refine ⟨fun s bp => rfl, ?_, fun s bp size => rfl, ?_⟩
  · intro s bp
    simp only [MM.coalesce, MM.coalesceMerge]
    split_ifs <;> rfl
  · intro s bp h
    simp only [Seg.free]
    rw [if_neg h]
    rfl

/-- C7 witness: the hypothesis-bearing conjunct (segregated `free`
decomposition) applied at the concrete state `segD`, block 248. -/
theorem coalesce_insert_discipline_witness :
    (248 : Nat) ≠ 0 ∧
    Seg.free segD 248 =
      Seg.insertBlk
        (Seg.coalesce (Seg.markFreeTags segD 248 (GET_SIZE (GET segD.mem (248 - 4)))) 248).1
        (Seg.coalesce (Seg.markFreeTags segD 248 (GET_SIZE (GET segD.mem (248 - 4)))) 248).2 :=
  ⟨by decide, coalesce_insert_discipline.2.2.2 segD 248 (by decide)⟩

/-- C8 counterexample: on the freshly initialised heap `mmHeapInit` the
region tail is a free 4096-byte block; `extend_heap` for 2 words returns
payload pointer 16 — the old free tail it merged with — and not the new
extent's payload pointer `brk = 4112`, contradicting "returns the payload
pointer of that new free block without coalescing it with the previous
tail block". -/
theorem extend_heap_returns_coalesced :
    mmHeapInit.brk = 4112 ∧
    GET_ALLOC (GET mmHeapInit.mem 4104) = 0 ∧
    (MM.extend_heap mmHeapInit 2).2 = 16 ∧
    (MM.extend_heap mmHeapInit 2).2 ≠ mmHeapInit.brk := by decide

/-- C8 (amended): in both variants `extend_heap` does write a fresh free
header and footer over the new extent and a fresh epilogue header at the
new tail (shown concretely on `mmHeapInit` for a 2-word request), but it
then calls `coalesce` itself and returns the coalesced result — coalescing
happens inside `extend_heap`, not in its caller. -/
theorem extend_heap_writes_then_coalesces :
    (∀ (s : MM.Heap) (words : Nat),
        MM.extend_heap s words =
          MM.coalesce (MM.extendWrites s words).1 (MM.extendWrites s words).2) ∧
    (∀ (s : Seg.Heap) (words : Nat),
        Seg.extend_heap s words =
          Seg.coalesce (Seg.extendWrites s words).1 (Seg.extendWrites s words).2) ∧
    (GET (MM.extendWrites mmHeapInit 2).1.mem 4108 = PACK 8 0 ∧
     GET (MM.extendWrites mmHeapInit 2).1.mem 4112 = PACK 8 0 ∧
     GET (MM.extendWrites mmHeapInit 2).1.mem 4116 = PACK 0 1 ∧
     (MM.extendWrites mmHeapInit 2).2 = 4112 ∧
     (MM.extendWrites mmHeapInit 2).1.brk = 4120) :=
  ⟨fun s words => rfl, fun s words => rfl, by decide⟩

/-- C9 counterexample: on `s9` the free list is `16 -> 48` and `place` is
asked to put 16 bytes into block B at 48 (size 32).  The split happens,
the remainder becomes the free block at 64, but no remove/insert pair
runs: the head stays 16 (not the remainder) and the remainder's
predecessor link is the inherited 16, not the 0 a head insertion would
write — contradicting "place first removes B ... and inserts that
remainder ... at the head of its list". -/
theorem place_remainder_keeps_position :
    s9.root = 16 ∧
    GET_SIZE (GET s9.mem 44) = 32 ∧
    MM.prev_free_val s9.mem 48 = 16 ∧
    (MM.place s9 48 16).mem 60 = PACK 16 0 ∧
    (MM.place s9 48 16).root = 16 ∧
    (MM.place s9 48 16).root ≠ 64 ∧
    MM.prev_free_val (MM.place s9 48 16).mem 64 = 16 ∧
    MM.prev_free_val (MM.place s9 48 16).mem 64 ≠ 0 := by decide

/-- C9 (amended): the segregated `place` is an unimplemented no-op; the
explicit-list `place` takes the split branch exactly when the wrapped
difference `csize - asize` is at least 16, in which case it performs the
link-inheriting split of `placeSplit` (no remove, no insert; the remainder
takes over B's list position and `root` moves to the remainder only if B
was the root), and otherwise performs `placeNoSplit` (remove B, mark the
whole block allocated, and patch `root` to B's successor when needed).
`malloc` returns B's payload pointer in both cases. -/
theorem place_discipline :
    (∀ (s : Seg.Heap) (bp asize : Nat), Seg.place s bp asize = s) ∧
    (∀ (s : MM.Heap) (bp asize : Nat),
        (GET_SIZE (GET s.mem (bp - 4)) + W64 - asize % W64) % W64 ≥ 16 →
        MM.place s bp asize = MM.placeSplit s bp asize) ∧
    (∀ (s : MM.Heap) (bp asize : Nat),
        ¬ (GET_SIZE (GET s.mem (bp - 4)) + W64 - asize % W64) % W64 ≥ 16 →
        MM.place s bp asize = MM.placeNoSplit s bp asize) := by
  refine ⟨fun s bp asize => rfl, ?_, ?_⟩
  · intro s bp asize h
    simp only [MM.place]
    rw [if_pos h]
    rfl
  · intro s bp asize h
    simp only [MM.place]
    rw [if_neg h]
    rfl

/-- C9 witness: the two hypothesis-bearing conjuncts applied on `s9` with
requests 16 (split) and 32 (no split). -/
theorem place_discipline_witness :
    ((GET_SIZE (GET s9.mem (48 - 4)) + W64 - 16 % W64) % W64 ≥ 16 ∧
      MM.place s9 48 16 = MM.placeSplit s9 48 16) ∧
    (¬ (GET_SIZE (GET s9.mem (48 - 4)) + W64 - 32 % W64) % W64 ≥ 16 ∧
      MM.place s9 48 32 = MM.placeNoSplit s9 48 32) :=
  ⟨⟨by decide, place_discipline.2.1 s9 48 16 (by decide)⟩,
   ⟨by decide, place_discipline.2.2 s9 48 32 (by decide)⟩⟩

/-- C10: in the explicit-list variant, `malloc` on an uninitialised state
(`heap_listp = 0`) is exactly `mm_init` followed by the normal allocation
body, and `free` on such a state is exactly `mm_init` followed by the
normal free body applied to the size read from the pre-initialisation
memory — the source reads `GET_SIZE(HDRP(bp))` before the `heap_listp`
check.  `mm_init` itself builds the padding word, prologue, epilogue and
the initial 4096-byte free extension (shown concretely on the fresh
state). -/
theorem lazy_init_services_requests :
    (∀ (s : MM.Heap) (n : Nat), s.heap_listp = 0 →
        MM.malloc s n = MM.mallocInited (MM.mm_init s) n) ∧
    (∀ (s : MM.Heap) (bp : Nat), s.heap_listp = 0 → bp ≠ 0 →
        MM.free s bp = MM.freeBody (MM.mm_init s) bp (GET_SIZE (GET s.mem (bp - 4)))) ∧
    (mmHeapInit.heap_listp = 8 ∧ mmHeapInit.brk = 4112 ∧
     GET mmHeapInit.mem 0 = 0 ∧ GET mmHeapInit.mem 4 = PACK 8 1 ∧
     GET mmHeapInit.mem 8 = PACK 8 1 ∧ GET mmHeapInit.mem 12 = PACK 4096 0 ∧
     GET mmHeapInit.mem 4104 = PACK 4096 0 ∧ GET mmHeapInit.mem 4108 = PACK 0 1 ∧
     mmHeapInit.root = 16) := by
  refine ⟨?_, ?_, by decide⟩
  · intro s n h
    rw [MM.malloc, if_pos h]
  · intro s bp h hbp
    simp [MM.free, hbp, h]

/-- C10 witness: both implications applied on the fresh state `heap0`. -/
theorem lazy_init_services_requests_witness :
    MM.heap0.heap_listp = 0 ∧ (16 : Nat) ≠ 0 ∧
    MM.malloc MM.heap0 24 = MM.mallocInited (MM.mm_init MM.heap0) 24 ∧
    MM.free MM.heap0 16 = MM.freeBody (MM.mm_init MM.heap0) 16
      (GET_SIZE (GET MM.heap0.mem (16 - 4))) :=
  ⟨rfl, by decide,
   lazy_init_services_requests.1 MM.heap0 24 rfl,
   lazy_init_services_requests.2.1 MM.heap0 16 rfl (by decide)⟩
